import Mathlib

/-!
Verification of the CSV record-extraction core of the repository
(`src/src/App.jsx`): the functions `parseCSV`, `parseCSVLine` and
`formatOutput`, embedded shallowly over `List Char` (JavaScript strings are
modelled as lists of characters; the ASCII fragment of `toLowerCase`,
`trim` and `split` is modelled, which covers every input considered here).
-/

/-- A JavaScript string, modelled as a list of characters. -/
abbrev Str := List Char

/-- The whitespace characters recognised by JavaScript `String.prototype.trim`
(ASCII fragment: space, tab, line feed, carriage return, vertical tab,
form feed). -/
def jsWhitespace (c : Char) : Bool :=
  c == ' ' || c == '\t' || c == '\n' || c == '\r' || c == '\x0b' || c == '\x0c'

/-- JavaScript `s.trim()`: drop whitespace from both ends. -/
def trimStr (s : Str) : Str :=
  ((s.dropWhile jsWhitespace).reverse.dropWhile jsWhitespace).reverse

/-- JavaScript `String.prototype.toLowerCase`, ASCII fragment, on one
character: the uppercase letters map to their lowercase forms, every other
character is unchanged. -/
def toLowerChar (c : Char) : Char :=
  if c == 'A' then 'a' else if c == 'B' then 'b' else if c == 'C' then 'c'
  else if c == 'D' then 'd' else if c == 'E' then 'e' else if c == 'F' then 'f'
  else if c == 'G' then 'g' else if c == 'H' then 'h' else if c == 'I' then 'i'
  else if c == 'J' then 'j' else if c == 'K' then 'k' else if c == 'L' then 'l'
  else if c == 'M' then 'm' else if c == 'N' then 'n' else if c == 'O' then 'o'
  else if c == 'P' then 'p' else if c == 'Q' then 'q' else if c == 'R' then 'r'
  else if c == 'S' then 's' else if c == 'T' then 't' else if c == 'U' then 'u'
  else if c == 'V' then 'v' else if c == 'W' then 'w' else if c == 'X' then 'x'
  else if c == 'Y' then 'y' else if c == 'Z' then 'z' else c

/-- JavaScript `s.toLowerCase()` on a whole string. -/
def toLowerStr (s : Str) : Str := s.map toLowerChar

/-- JavaScript `s.split(sep)` for a one-character separator: splits at every
occurrence of `sep`; the empty string splits to `[""]`. -/
def splitChar (sep : Char) : Str → List Str
  | [] => [[]]
  | c :: cs =>
    if c == sep then [] :: splitChar sep cs
    else
      match splitChar sep cs with
      | [] => [[c]]
      | f :: rest => (c :: f) :: rest

/-- JavaScript `s.replace(/"/g, '')`: remove every double-quote character. -/
def removeQuotes (s : Str) : Str := s.filter (fun c => !(c == '"'))

/-- The loop body of `parseCSVLine` (src/src/App.jsx lines 50-70): scan the
remaining characters with the `inQuotes` flag and the accumulated `current`
field; a double quote toggles the flag and is not emitted, a comma outside
quotes terminates the current field, any other character (and a comma inside
quotes) is appended to the current field; at end of line the final buffer is
emitted even if empty. -/
def parseCSVLineAux (inQuotes : Bool) (current : Str) : Str → List Str
  | [] => [current]
  | c :: cs =>
    if c == '"' then parseCSVLineAux (!inQuotes) current cs
    else if c == ',' && !inQuotes then current :: parseCSVLineAux inQuotes [] cs
    else parseCSVLineAux inQuotes (current ++ [c]) cs

/-- `parseCSVLine` from src/src/App.jsx: quote-aware splitting of one line
into fields. -/
def parseCSVLine (line : Str) : List Str := parseCSVLineAux false [] line

/-- One extracted record: `{ username, displayName }`. -/
structure Record where
  username : Str
  displayName : Str
deriving DecidableEq, Repr

/-- The two failure kinds of `parseCSV`, each carrying the thrown `Error`
message. -/
inductive ParseError where
  | emptyInput (msg : Str)
  | missingColumns (msg : Str)
deriving DecidableEq, Repr

/-- The message of `new Error('CSV file is empty')`. -/
def emptyMsg : Str := "CSV file is empty".toList

/-- The message of
`new Error('CSV must contain "username" and "displayName" columns')`. -/
def missingMsg : Str :=
  "CSV must contain \"username\" and \"displayName\" columns".toList

/-- The header cells of `parseCSV`
(`lines[0].toLowerCase().split(',').map(h => h.trim().replace(/"/g, ''))`):
the first line is lowercased, split naively at every comma, and each cell is
trimmed and de-quoted. -/
def headerCells (line0 : Str) : List Str :=
  (splitChar ',' (toLowerStr line0)).map (fun h => removeQuotes (trimStr h))

/-- The predicate of `header.findIndex(h => h === 'username')`. -/
def isUsernameCell (h : Str) : Bool := h == "username".toList

/-- The predicate of `header.findIndex(h => h === 'displayname' ||
h === 'display_name' || h === 'display name')`. -/
def isDisplayNameCell (h : Str) : Bool :=
  h == "displayname".toList || h == "display_name".toList ||
    h == "display name".toList

/-- `usernameIndex` in `parseCSV`: the index of the first header cell equal to
`username` (`findIndex` returns the first match; `none` models `-1`). -/
def usernameIndexOf (line0 : Str) : Option Nat :=
  (headerCells line0).findIdx? isUsernameCell

/-- `displayNameIndex` in `parseCSV`. -/
def displayNameIndexOf (line0 : Str) : Option Nat :=
  (headerCells line0).findIdx? isDisplayNameCell

/-- The body of the data-row loop of `parseCSV` (src/src/App.jsx lines
31-45) for one line: blank lines are skipped; the line is tokenized with
`parseCSVLine`; if the field count does not exceed `max usernameIndex
displayNameIndex` the line is skipped; otherwise the two fields are trimmed
and de-quoted, and a record is produced only when both are non-empty. -/
def parseRow (ui di : Nat) (line : Str) : Option Record :=
  if trimStr line = [] then none
  else
    let values := parseCSVLine line
    if values.length > max ui di then
      let username := removeQuotes (trimStr (values.getD ui []))
      let displayName := removeQuotes (trimStr (values.getD di []))
      if username ≠ [] ∧ displayName ≠ [] then
        some { username := username, displayName := displayName }
      else none
    else none

/-- The data-row loop of `parseCSV` over all lines after the header, in file
order. -/
def extractRows (ui di : Nat) (lines : List Str) : List Record :=
  lines.filterMap (parseRow ui di)

/-- `parseCSV` from src/src/App.jsx: trim the input, split it into lines at
newlines, throw `CSV file is empty` if zero lines result, resolve the
`username` and displayName columns from line 0, throw the missing-columns
error when either is unresolved, and otherwise extract the data rows. -/
def parseCSV (text : Str) : Except ParseError (List Record) :=
  match splitChar '\n' (trimStr text) with
  | [] => .error (.emptyInput emptyMsg)
  | line0 :: rest =>
    match usernameIndexOf line0, displayNameIndexOf line0 with
    | some ui, some di => .ok (extractRows ui di rest)
    | _, _ => .error (.missingColumns missingMsg)

/-- JavaScript `Array.prototype.join(sep)`. -/
def joinWith (sep : Str) : List Str → Str
  | [] => []
  | [x] => x
  | x :: xs => x ++ sep ++ joinWith sep xs

/-- `formatOutput` from src/src/App.jsx:
row-wise `username@displayName`, joined by a comma and a newline. -/
def formatOutput (data : List Record) : Str :=
  joinWith (",\n".toList) (data.map (fun r => r.username ++ ['@'] ++ r.displayName))

instance {ε α : Type} [DecidableEq ε] [DecidableEq α] : DecidableEq (Except ε α) := fun x y =>
  match x, y with
  | .ok a, .ok b =>
    if h : a = b then .isTrue (by rw [h]) else .isFalse (by simp [h])
  | .error a, .error b =>
    if h : a = b then .isTrue (by rw [h]) else .isFalse (by simp [h])
  | .ok _, .error _ => .isFalse (by simp)
  | .error _, .ok _ => .isFalse (by simp)

/-- `true` exactly on the `EmptyInputError` outcome of `parseCSV`. -/
def isEmptyInputErr : Except ParseError (List Record) → Bool
  | .error (.emptyInput _) => true
  | _ => false

/-- A well-formed CSV cell for the round-trip theorem: non-empty, fixed by
trimming (no surrounding whitespace), and free of commas, double quotes and
newlines, so the parser returns it verbatim. -/
def plainCell (u : Str) : Prop :=
  u ≠ [] ∧ trimStr u = u ∧ ∀ c ∈ u, ¬(c = ',' ∨ c = '"' ∨ c = '\n')

instance (u : Str) : Decidable (plainCell u) := by
  unfold plainCell
  infer_instance

/-- One two-column data line `u,d`. -/
def csvLine (p : Str × Str) : Str := p.1 ++ [','] ++ p.2

/-- A two-column CSV text with header `username,displayName` and the given
data rows, one per line. -/
def csvTextOf (rows : List (Str × Str)) : Str :=
  "username,displayName".toList ++ (rows.map (fun p => '\n' :: csvLine p)).flatten

/-- The header-cell computation as the specification words it (§4.2 step 2):
tokenize line 0 with the quote-aware Line Tokenizer, then lowercase, trim and
de-quote each header field. Stated for comparison with `headerCells`, the
computation the code actually performs. -/
def specHeaderCells (line0 : Str) : List Str :=
  (parseCSVLine line0).map (fun h => removeQuotes (trimStr (toLowerStr h)))

/-- One step of the Line Tokenizer as §4.1 of the specification describes it:
the state is the inside-quotes flag, the current-field buffer and the fields
emitted so far; a double quote toggles the flag and is not emitted, a comma
outside quotes emits the buffer as a completed field, a comma inside quotes is
appended literally, and any other character is appended to the buffer. -/
def tokenizeStep (st : Bool × Str × List Str) (c : Char) : Bool × Str × List Str :=
  match st with
  | (inQ, buf, fields) =>
    if c == '"' then (!inQ, buf, fields)
    else if c == ',' then
      if inQ then (inQ, buf ++ [c], fields) else (false, [], fields ++ [buf])
    else (inQ, buf ++ [c], fields)

/-- The Line Tokenizer as the specification describes it: scan the line left
to right with `tokenizeStep` from the initial state (flag false, empty buffer,
no fields) and, at end of line, emit the final buffer even if it is empty.
Stated for comparison with `parseCSVLine`. -/
def tokenizeSpec (line : Str) : List Str :=
  match line.foldl tokenizeStep (false, [], []) with
  | (_, buf, fields) => fields ++ [buf]

theorem splitChar_ne_nil (sep : Char) (s : Str) : splitChar sep s ≠ [] := by
  induction s with
  | nil => simp [splitChar]
  | cons c cs ih =>
    simp only [splitChar]
    split
    · simp
    · rcases h : splitChar sep cs with _ | ⟨f, r⟩ <;> simp
theorem toLowerChar_eq_comma {c : Char} (h : toLowerChar c = ',') : c = ',' := by
  unfold toLowerChar at h
  by_cases h1 : (c == 'A') = true
  · rw [if_pos h1] at h; exact absurd h (by decide)
  rw [if_neg h1] at h
  by_cases h2 : (c == 'B') = true
  · rw [if_pos h2] at h; exact absurd h (by decide)
  rw [if_neg h2] at h
  by_cases h3 : (c == 'C') = true
  · rw [if_pos h3] at h; exact absurd h (by decide)
  rw [if_neg h3] at h
  by_cases h4 : (c == 'D') = true
  · rw [if_pos h4] at h; exact absurd h (by decide)
  rw [if_neg h4] at h
  by_cases h5 : (c == 'E') = true
  · rw [if_pos h5] at h; exact absurd h (by decide)
  rw [if_neg h5] at h
  by_cases h6 : (c == 'F') = true
  · rw [if_pos h6] at h; exact absurd h (by decide)
  rw [if_neg h6] at h
  by_cases h7 : (c == 'G') = true
  · rw [if_pos h7] at h; exact absurd h (by decide)
  rw [if_neg h7] at h
  by_cases h8 : (c == 'H') = true
  · rw [if_pos h8] at h; exact absurd h (by decide)
  rw [if_neg h8] at h
  by_cases h9 : (c == 'I') = true
  · rw [if_pos h9] at h; exact absurd h (by decide)
  rw [if_neg h9] at h
  by_cases h10 : (c == 'J') = true
  · rw [if_pos h10] at h; exact absurd h (by decide)
  rw [if_neg h10] at h
  by_cases h11 : (c == 'K') = true
  · rw [if_pos h11] at h; exact absurd h (by decide)
  rw [if_neg h11] at h
  by_cases h12 : (c == 'L') = true
  · rw [if_pos h12] at h; exact absurd h (by decide)
  rw [if_neg h12] at h
  by_cases h13 : (c == 'M') = true
  · rw [if_pos h13] at h; exact absurd h (by decide)
  rw [if_neg h13] at h
  by_cases h14 : (c == 'N') = true
  · rw [if_pos h14] at h; exact absurd h (by decide)
  rw [if_neg h14] at h
  by_cases h15 : (c == 'O') = true
  · rw [if_pos h15] at h; exact absurd h (by decide)
  rw [if_neg h15] at h
  by_cases h16 : (c == 'P') = true
  · rw [if_pos h16] at h; exact absurd h (by decide)
  rw [if_neg h16] at h
  by_cases h17 : (c == 'Q') = true
  · rw [if_pos h17] at h; exact absurd h (by decide)
  rw [if_neg h17] at h
  by_cases h18 : (c == 'R') = true
  · rw [if_pos h18] at h; exact absurd h (by decide)
  rw [if_neg h18] at h
  by_cases h19 : (c == 'S') = true
  · rw [if_pos h19] at h; exact absurd h (by decide)
  rw [if_neg h19] at h
  by_cases h20 : (c == 'T') = true
  · rw [if_pos h20] at h; exact absurd h (by decide)
  rw [if_neg h20] at h
  by_cases h21 : (c == 'U') = true
  · rw [if_pos h21] at h; exact absurd h (by decide)
  rw [if_neg h21] at h
  by_cases h22 : (c == 'V') = true
  · rw [if_pos h22] at h; exact absurd h (by decide)
  rw [if_neg h22] at h
  by_cases h23 : (c == 'W') = true
  · rw [if_pos h23] at h; exact absurd h (by decide)
  rw [if_neg h23] at h
  by_cases h24 : (c == 'X') = true
  · rw [if_pos h24] at h; exact absurd h (by decide)
  rw [if_neg h24] at h
  by_cases h25 : (c == 'Y') = true
  · rw [if_pos h25] at h; exact absurd h (by decide)
  rw [if_neg h25] at h
  by_cases h26 : (c == 'Z') = true
  · rw [if_pos h26] at h; exact absurd h (by decide)
  rw [if_neg h26] at h
  exact h

theorem toLowerChar_comma (c : Char) : (toLowerChar c == ',') = (c == ',') := by
  by_cases h : c = ','
  · subst h; decide
  · have h2 : toLowerChar c ≠ ',' := fun hc => h (toLowerChar_eq_comma hc)
    simp [h2, h]

theorem splitChar_comma_toLower (s : Str) :
    splitChar ',' (toLowerStr s) = (splitChar ',' s).map toLowerStr := by
  induction s with
  | nil => rfl
  | cons c cs ih =>
    show splitChar ',' (toLowerChar c :: toLowerStr cs) =
      (splitChar ',' (c :: cs)).map toLowerStr
    simp only [splitChar]
    rw [toLowerChar_comma c]
    by_cases h : (c == ',') = true
    · simp only [h, if_true]
      rw [ih]
      rfl
    · simp only [h, if_false]
      obtain ⟨f, r, hs⟩ : ∃ f r, splitChar ',' cs = f :: r := by
        rcases hx : splitChar ',' cs with _ | ⟨f, r⟩
        · exact absurd hx (splitChar_ne_nil ',' cs)
        · exact ⟨f, r, rfl⟩
      rw [hs, ih, hs]
      rfl

theorem splitChar_of_not_mem {sep : Char} {a : Str} (h : sep ∉ a) :
    splitChar sep a = [a] := by
  induction a with
  | nil => rfl
  | cons c cs ih =>
    simp only [splitChar]
    have hc : (c == sep) = false := by
      simp only [beq_eq_false_iff_ne]
      intro he
      exact h (he ▸ List.mem_cons_self c cs)
    rw [hc]
    simp only [Bool.false_eq_true, if_false]
    rw [ih (fun hm => h (List.mem_cons_of_mem c hm))]

theorem splitChar_append_sep {sep : Char} {a : Str} (b : Str) (h : sep ∉ a) :
    splitChar sep (a ++ sep :: b) = a :: splitChar sep b := by
  induction a with
  | nil =>
    simp only [List.nil_append, splitChar, beq_self_eq_true, if_true]
  | cons c cs ih =>
    have hc : (c == sep) = false := by
      simp only [beq_eq_false_iff_ne]
      intro he
      exact h (he ▸ List.mem_cons_self c cs)
    simp only [List.cons_append, splitChar, hc, Bool.false_eq_true, if_false, List.append_eq]
    rw [ih (fun hm => h (List.mem_cons_of_mem c hm))]

theorem splitChar_header_flatten {sep : Char} :
    ∀ (ls : List Str) (a : Str), sep ∉ a → (∀ l ∈ ls, sep ∉ l) →
      splitChar sep (a ++ (ls.map (sep :: ·)).flatten) = a :: ls := by
  intro ls
  induction ls with
  | nil =>
    intro a ha _
    simp only [List.map_nil, List.flatten_nil, List.append_nil]
    exact splitChar_of_not_mem ha
  | cons l ls ih =>
    intro a ha hls
    simp only [List.map_cons, List.flatten_cons, List.cons_append]
    rw [splitChar_append_sep _ ha]
    rw [ih l (hls l (List.mem_cons_self l ls)) (fun x hx => hls x (List.mem_cons_of_mem l hx))]

theorem dropWhile_eq_self_of_head (l : Str)
    (h : ∀ c, l.head? = some c → jsWhitespace c = false) :
    l.dropWhile jsWhitespace = l := by
  cases l with
  | nil => rfl
  | cons c cs =>
    rw [List.dropWhile_cons, h c rfl]
    simp

theorem head_not_ws_of_dropWhile_eq_self {l : Str}
    (h : l.dropWhile jsWhitespace = l) :
    ∀ c, l.head? = some c → jsWhitespace c = false := by
  intro c hc
  cases l with
  | nil => simp at hc
  | cons x xs =>
    have hxc : x = c := by injection hc
    subst hxc
    by_contra hw
    have hw' : jsWhitespace x = true := by
      cases hv : jsWhitespace x
      · exact absurd hv hw
      · rfl
    rw [List.dropWhile_cons, hw'] at h
    simp only [if_true] at h
    have hlen : (xs.dropWhile jsWhitespace).length ≤ xs.length :=
      (List.dropWhile_sublist _).length_le
    rw [h] at hlen
    simp at hlen

theorem trimStr_eq_self_of (l : Str)
    (h1 : l.dropWhile jsWhitespace = l)
    (h2 : l.reverse.dropWhile jsWhitespace = l.reverse) :
    trimStr l = l := by
  unfold trimStr
  rw [h1, h2, List.reverse_reverse]

theorem trimStr_eq_self_ends {t : Str}
    (hh : ∀ c, t.head? = some c → jsWhitespace c = false)
    (hl : ∀ c, t.reverse.head? = some c → jsWhitespace c = false) :
    trimStr t = t :=
  trimStr_eq_self_of _ (dropWhile_eq_self_of_head _ hh) (dropWhile_eq_self_of_head _ hl)

theorem dropWhile_of_trimStr_eq_self {l : Str} (h : trimStr l = l) :
    l.dropWhile jsWhitespace = l ∧ l.reverse.dropWhile jsWhitespace = l.reverse := by
  unfold trimStr at h
  have hBl : ((l.dropWhile jsWhitespace).reverse.dropWhile jsWhitespace).length = l.length := by
    rw [← List.length_reverse ((l.dropWhile jsWhitespace).reverse.dropWhile jsWhitespace), h]
  have hlen1 : ((l.dropWhile jsWhitespace).reverse.dropWhile jsWhitespace).length ≤
      (l.dropWhile jsWhitespace).length := by
    have := (List.dropWhile_sublist (l := (l.dropWhile jsWhitespace).reverse)
      jsWhitespace).length_le
    simpa using this
  have hlen2 : (l.dropWhile jsWhitespace).length ≤ l.length :=
    (List.dropWhile_sublist _).length_le
  have hAeq : l.dropWhile jsWhitespace = l :=
    (List.dropWhile_sublist _).eq_of_length (by omega)
  refine ⟨hAeq, ?_⟩
  rw [hAeq] at h
  have : (l.reverse.dropWhile jsWhitespace).reverse.reverse = l.reverse := by rw [h]
  simpa using this

theorem parseCSVLineAux_clean {u : Str} (hu : ∀ c ∈ u, ¬(c = ',' ∨ c = '"')) :
    ∀ (cur rest : Str),
      parseCSVLineAux false cur (u ++ rest) = parseCSVLineAux false (cur ++ u) rest := by
  induction u with
  | nil => intro cur rest; simp
  | cons c cs ih =>
    intro cur rest
    have hc := hu c (List.mem_cons_self c cs)
    have h1 : (c == '"') = false := by
      simp only [beq_eq_false_iff_ne]
      tauto
    have h2 : (c == ',') = false := by
      simp only [beq_eq_false_iff_ne]
      tauto
    simp only [List.cons_append, parseCSVLineAux, h1, h2, Bool.false_and,
      Bool.false_eq_true, if_false, Bool.not_false, Bool.true_and, Bool.and_self,
      List.append_eq]
    rw [ih (fun x hx => hu x (List.mem_cons_of_mem c hx)) (cur ++ [c]) rest]
    simp

theorem parseCSVLine_pair {u d : Str}
    (hu : ∀ c ∈ u, ¬(c = ',' ∨ c = '"')) (hd : ∀ c ∈ d, ¬(c = ',' ∨ c = '"')) :
    parseCSVLine (u ++ [','] ++ d) = [u, d] := by
  unfold parseCSVLine
  rw [List.append_assoc, List.singleton_append]
  rw [parseCSVLineAux_clean hu [] (',' :: d)]
  show parseCSVLineAux false ([] ++ u) (',' :: d) = [u, d]
  simp only [List.nil_append]
  show (if (',' == '"') = true then _ else if ((',' == ',') && !false) = true
    then u :: parseCSVLineAux false [] d else _) = [u, d]
  norm_num
  rw [show (d : Str) = d ++ [] from (List.append_nil d).symm,
    parseCSVLineAux_clean hd [] []]
  simp [parseCSVLineAux]

theorem plainCell_no_comma_quote {u : Str} (hu : plainCell u) :
    ∀ c ∈ u, ¬(c = ',' ∨ c = '"') := by
  intro c hc h
  rcases h with h | h
  · exact hu.2.2 c hc (Or.inl h)
  · exact hu.2.2 c hc (Or.inr (Or.inl h))

theorem removeQuotes_eq_self {u : Str} (hu : ∀ c ∈ u, ¬(c = '"')) :
    removeQuotes u = u := by
  refine List.filter_eq_self.mpr (fun a ha => ?_)
  simp only [Bool.not_eq_true', beq_eq_false_iff_ne]
  exact hu a ha

theorem trimStr_csvLine {u d : Str} (hu : plainCell u) (hd : plainCell d) :
    trimStr (u ++ [','] ++ d) = u ++ [','] ++ d := by
  obtain ⟨hune, hutr, _⟩ := hu
  obtain ⟨hdne, hdtr, _⟩ := hd
  obtain ⟨hu1, _⟩ := dropWhile_of_trimStr_eq_self hutr
  obtain ⟨_, hd2⟩ := dropWhile_of_trimStr_eq_self hdtr
  apply trimStr_eq_self_ends
  · intro c hc
    obtain ⟨x, xs, hx⟩ := List.exists_cons_of_ne_nil hune
    subst hx
    simp only [List.cons_append, List.head?_cons, Option.some.injEq] at hc
    exact hc ▸ head_not_ws_of_dropWhile_eq_self hu1 x rfl
  · intro c hc
    obtain ⟨x, xs, hx⟩ := List.exists_cons_of_ne_nil
      (fun h : d.reverse = [] => hdne (by simpa using congrArg List.reverse h))
    rw [List.reverse_append, hx] at hc
    simp only [List.cons_append, List.head?_cons, Option.some.injEq] at hc
    exact hc ▸ head_not_ws_of_dropWhile_eq_self hd2 x (by rw [hx]; rfl)

theorem parseRow_pair {u d : Str} (hu : plainCell u) (hd : plainCell d) :
    parseRow 0 1 (csvLine (u, d)) = some { username := u, displayName := d } := by
  unfold parseRow csvLine
  rw [trimStr_csvLine hu hd]
  rw [if_neg (by simp [hu.1] : ¬((u ++ [','] ++ d : Str) = []))]
  rw [show parseCSVLine (u ++ [','] ++ d) = [u, d] from
    parseCSVLine_pair (plainCell_no_comma_quote hu) (plainCell_no_comma_quote hd)]
  have hru : removeQuotes (trimStr u) = u := by
    rw [hu.2.1]
    exact removeQuotes_eq_self (fun a ha h => hu.2.2 a ha (Or.inr (Or.inl h)))
  have hrd : removeQuotes (trimStr d) = d := by
    rw [hd.2.1]
    exact removeQuotes_eq_self (fun a ha h => hd.2.2 a ha (Or.inr (Or.inl h)))
  simp only [List.length_cons, List.length_nil, List.getD_cons_zero, List.getD_cons_succ,
    hru, hrd]
  rw [if_pos (by decide : (0:Nat) + 1 + 1 > max 0 1)]
  rw [if_pos ⟨hu.1, hd.1⟩]

theorem csvLine_no_newline {p : Str × Str} (h1 : plainCell p.1) (h2 : plainCell p.2) :
    '\n' ∉ csvLine p := by
  unfold csvLine
  intro hm
  rcases List.mem_append.mp hm with hm | hm
  · rcases List.mem_append.mp hm with hm | hm
    · exact h1.2.2 _ hm (Or.inr (Or.inr rfl))
    · rw [List.mem_singleton] at hm
      exact absurd hm (by decide)
  · exact h2.2.2 _ hm (Or.inr (Or.inr rfl))

theorem dropWhile_reverse_append {X Y : Str}
    (hY : Y.reverse.dropWhile jsWhitespace = Y.reverse) (hYne : Y ≠ []) :
    (X ++ Y).reverse.dropWhile jsWhitespace = (X ++ Y).reverse := by
  rw [List.reverse_append]
  apply dropWhile_eq_self_of_head
  intro c hc
  obtain ⟨x, xs, hx⟩ := List.exists_cons_of_ne_nil
    (fun h : Y.reverse = [] => hYne (by simpa using congrArg List.reverse h))
  rw [hx, List.cons_append, List.head?_cons] at hc
  injection hc with hc
  exact hc ▸ head_not_ws_of_dropWhile_eq_self hY x (by rw [hx]; rfl)

theorem trimStr_csvTextOf (rows : List (Str × Str))
    (h : ∀ p ∈ rows, plainCell p.1 ∧ plainCell p.2) :
    trimStr (csvTextOf rows) = csvTextOf rows := by
  rcases List.eq_nil_or_concat rows with hr | ⟨L, p, hr⟩
  · subst hr; decide
  · subst hr
    have hp := h p (by
      rw [List.concat_eq_append]
      exact List.mem_append_right _ (List.mem_singleton.mpr rfl))
    have hshape : csvTextOf (L.concat p) =
        ("username,displayName".toList ++ (L.map (fun q => '\n' :: csvLine q)).flatten ++
          ('\n' :: (p.1 ++ [',']))) ++ p.2 := by
      unfold csvTextOf csvLine
      rw [List.concat_eq_append, List.map_append, List.flatten_append]
      simp [List.append_assoc]
    rw [hshape]
    apply trimStr_eq_self_of
    · apply dropWhile_eq_self_of_head
      intro c hc
      rw [show ("username,displayName".toList : Str) =
        'u' :: "sername,displayName".toList from rfl] at hc
      simp only [List.cons_append, List.append_assoc, List.head?_cons,
        Option.some.injEq] at hc
      exact hc ▸ (by decide : jsWhitespace 'u' = false)
    · exact dropWhile_reverse_append (dropWhile_of_trimStr_eq_self hp.2.2.1).2 hp.2.1

theorem split_csvTextOf (rows : List (Str × Str))
    (h : ∀ p ∈ rows, plainCell p.1 ∧ plainCell p.2) :
    splitChar '\n' (trimStr (csvTextOf rows)) =
      "username,displayName".toList :: rows.map csvLine := by
  rw [trimStr_csvTextOf rows h]
  unfold csvTextOf
  rw [show rows.map (fun p => '\n' :: csvLine p) =
    (rows.map csvLine).map (fun l => '\n' :: l) from by rw [List.map_map]; rfl]
  apply splitChar_header_flatten
  · decide
  · intro l hl
    obtain ⟨p, hp, rfl⟩ := List.mem_map.mp hl
    exact csvLine_no_newline (h p hp).1 (h p hp).2

theorem extractRows_csv (rows : List (Str × Str))
    (h : ∀ p ∈ rows, plainCell p.1 ∧ plainCell p.2) :
    extractRows 0 1 (rows.map csvLine) =
      rows.map (fun p => { username := p.1, displayName := p.2 }) := by
  induction rows with
  | nil => rfl
  | cons q qs ih =>
    have hq := h q (List.mem_cons_self q qs)
    simp only [List.map_cons]
    unfold extractRows
    rw [List.filterMap_cons]
    rw [show parseRow 0 1 (csvLine q) = some { username := q.1, displayName := q.2 } from
      parseRow_pair hq.1 hq.2]
    unfold extractRows at ih
    rw [ih (fun p hp => h p (List.mem_cons_of_mem q hp))]

theorem parseCSV_cons (line0 : Str) (rest : List Str) (t : Str)
    (hsplit : splitChar '\n' (trimStr t) = line0 :: rest) :
    parseCSV t = (match usernameIndexOf line0, displayNameIndexOf line0 with
      | some ui, some di => .ok (extractRows ui di rest)
      | _, _ => .error (.missingColumns missingMsg)) := by
  unfold parseCSV
  rw [hsplit]

theorem parseCSV_resolved {t line0 : Str} {rest : List Str} {ui di : Nat}
    (hsplit : splitChar '\n' (trimStr t) = line0 :: rest)
    (hu : usernameIndexOf line0 = some ui) (hd : displayNameIndexOf line0 = some di) :
    parseCSV t = .ok (extractRows ui di rest) := by
  rw [parseCSV_cons line0 rest t hsplit, hu, hd]

theorem parseCSV_unresolved {t line0 : Str} {rest : List Str}
    (hsplit : splitChar '\n' (trimStr t) = line0 :: rest)
    (hmiss : usernameIndexOf line0 = none ∨ displayNameIndexOf line0 = none) :
    parseCSV t = .error (.missingColumns missingMsg) := by
  rw [parseCSV_cons line0 rest t hsplit]
  rcases hmiss with hm | hm
  · rcases h2 : displayNameIndexOf line0 with _ | d <;> (rw [hm]; try rfl)
  · rcases h1 : usernameIndexOf line0 with _ | u <;> (rw [hm]; try rfl)

theorem findIdx?_shift {α : Type} (p : α → Bool) :
    ∀ (l : List α) (n : Nat), l.findIdx? p n = (l.findIdx? p 0).map (· + n) := by
  intro l
  induction l with
  | nil => intro n; rfl
  | cons x xs ih =>
    intro n
    rw [List.findIdx?_cons, List.findIdx?_cons]
    by_cases h : p x
    · simp [h]
    · simp only [h, Bool.false_eq_true, if_false]
      rw [ih (n + 1), ih 1]
      rcases xs.findIdx? p 0 with _ | k
      · rfl
      · show some (k + (n + 1)) = some (k + 1 + n)
        congr 1
        omega

theorem findIdx?_leftmost (p : Str → Bool) :
    ∀ (l : List Str) (i : Nat), l.findIdx? p = some i →
      p (l.getD i []) = true ∧ ∀ j, j < i → p (l.getD j []) = false := by
  intro l
  induction l with
  | nil => intro i h; exact Option.noConfusion h
  | cons x xs ih =>
    intro i h
    rw [List.findIdx?_cons] at h
    by_cases hp : p x
    · rw [if_pos hp] at h
      injection h with h
      subst h
      exact ⟨hp, fun j hj => absurd hj (by omega)⟩
    · rw [if_neg hp] at h
      rw [findIdx?_shift] at h
      rcases hb : xs.findIdx? p 0 with _ | k
      · rw [hb] at h; simp at h
      · rw [hb] at h
        have h' : k + 1 = i := by injection h
        subst h'
        obtain ⟨h1, h2⟩ := ih k hb
        refine ⟨by simpa using h1, ?_⟩
        intro j hj
        cases j with
        | zero =>
          simp only [List.getD_cons_zero]
          cases hv : p x
          · rfl
          · exact absurd hv hp
        | succ j' =>
          rw [List.getD_cons_succ]
          exact h2 j' (by omega)

theorem tokenizeStep_eq (inQ : Bool) (cur : Str) (out : List Str) (c : Char) :
    tokenizeStep (inQ, cur, out) c =
      (if (c == '"') = true then (!inQ, cur, out)
       else if (c == ',') = true then
         (if inQ = true then (inQ, cur ++ [c], out) else (false, [], out ++ [cur]))
       else (inQ, cur ++ [c], out)) := rfl

theorem parseCSVLineAux_cons (inQ : Bool) (cur : Str) (c : Char) (cs : Str) :
    parseCSVLineAux inQ cur (c :: cs) =
      (if (c == '"') = true then parseCSVLineAux (!inQ) cur cs
       else if ((c == ',') && !inQ) = true then cur :: parseCSVLineAux inQ [] cs
       else parseCSVLineAux inQ (cur ++ [c]) cs) := rfl

theorem tokenize_aux_eq (l : Str) : ∀ (inQ : Bool) (cur : Str) (out : List Str),
    (l.foldl tokenizeStep (inQ, cur, out)).2.2 ++ [(l.foldl tokenizeStep (inQ, cur, out)).2.1]
      = out ++ parseCSVLineAux inQ cur l := by
  induction l with
  | nil =>
    intro inQ cur out
    rfl
  | cons c cs ih =>
    intro inQ cur out
    rw [List.foldl_cons, tokenizeStep_eq, parseCSVLineAux_cons]
    by_cases h1 : (c == '"') = true
    · rw [if_pos h1, if_pos h1, ih]
    · rw [if_neg h1, if_neg h1]
      by_cases h2 : (c == ',') = true
      · rw [if_pos h2]
        cases inQ with
        | true =>
          rw [if_pos rfl]
          rw [show ((c == ',') && !true) = false from by rw [h2]; rfl]
          simp only [Bool.false_eq_true, if_false]
          rw [ih]
        | false =>
          rw [if_neg (by decide : ¬(false = true))]
          rw [show ((c == ',') && !false) = true from by rw [h2]; rfl]
          rw [if_pos rfl, ih]
          simp
      · rw [if_neg h2]
        rw [show ((c == ',') && !inQ) = false from by
          cases hv : (c == ',') with
          | true => exact absurd hv h2
          | false => rfl]
        simp only [Bool.false_eq_true, if_false]
        rw [ih]

theorem parseCSVLine_eq_tokenizeSpec (line : Str) : parseCSVLine line = tokenizeSpec line :=
  ((tokenize_aux_eq line false [] []).trans (List.nil_append _)).symm

/-- Claim C1: the specification says zero-length or all-whitespace input fails
with `EmptyInputError`; the code instead fails with the missing-columns error,
because `''.split('\n')` is `['']`, so the `lines.length === 0` check never
fires; the `EmptyInputError` outcome is unreachable for every input. -/
theorem c1_empty_input_diverges :
    parseCSV ([] : Str) = .error (.missingColumns missingMsg) ∧
    parseCSV "   \n\t ".toList = .error (.missingColumns missingMsg) ∧
    ∀ text : Str, isEmptyInputErr (parseCSV text) = false := by
  refine ⟨by decide, by decide, fun text => ?_⟩
  rcases hsp : splitChar '\n' (trimStr text) with _ | ⟨l0, rest⟩
  · exact absurd hsp (splitChar_ne_nil '\n' (trimStr text))
  · rw [parseCSV_cons l0 rest text hsp]
    rcases usernameIndexOf l0 with _ | ui <;> rcases displayNameIndexOf l0 with _ | di <;> rfl

/-- Claim C2, counterexample: header positions are not determined by the
quote-aware tokenizer; on `"username,x",displayName` the tokenizer-based
cells contain no `username` cell at all, yet the code resolves the username
column at position 0 and extraction succeeds. -/
theorem c2_header_counterexample :
    usernameIndexOf "\"username,x\",displayName".toList = some 0 ∧
    (specHeaderCells "\"username,x\",displayName".toList).findIdx? isUsernameCell = none ∧
    specHeaderCells "\"username,x\",displayName".toList =
      ["username,x".toList, "displayname".toList] ∧
    parseCSV "\"username,x\",displayName\na,b,c".toList =
      .ok [{ username := "a".toList, displayName := "c".toList }] :=
  ⟨by decide, by decide, by decide, by decide⟩

/-- Claim C2, amended: header positions are determined by splitting the
lowercased line 0 naively at every comma (not with the quote-aware
tokenizer), then trimming and de-quoting each field; a quoted header cell
containing a comma is split at that comma. -/
theorem c2_header_naive_split :
    (∀ line0 : Str, headerCells line0 =
      (splitChar ',' line0).map (fun h => removeQuotes (trimStr (toLowerStr h)))) ∧
    headerCells "\"username,x\",displayName".toList =
      ["username".toList, "x".toList, "displayname".toList] ∧
    usernameIndexOf "\"username,x\",displayName".toList = some 0 ∧
    displayNameIndexOf "\"username,x\",displayName".toList = some 2 := by
  refine ⟨fun line0 => ?_, by decide, by decide, by decide⟩
  unfold headerCells
  rw [splitChar_comma_toLower, List.map_map]
  rfl

/-- Claim C3: a well-formed two-column CSV with header `username,displayName`
and N plain data rows yields exactly those N records in file order, and the
formatting step joins `username@displayName` lines with a comma-newline
separator. -/
theorem c3_wellformed_extract (rows : List (Str × Str))
    (h : ∀ p ∈ rows, plainCell p.1 ∧ plainCell p.2) :
    parseCSV (csvTextOf rows) =
      .ok (rows.map (fun p => { username := p.1, displayName := p.2 })) ∧
    formatOutput (rows.map (fun p => { username := p.1, displayName := p.2 })) =
      joinWith (",\n".toList) (rows.map (fun p => p.1 ++ ['@'] ++ p.2)) := by
  constructor
  · rw [parseCSV_resolved (split_csvTextOf rows h)
      (by decide : usernameIndexOf "username,displayName".toList = some 0)
      (by decide : displayNameIndexOf "username,displayName".toList = some 1)]
    rw [extractRows_csv rows h]
  · unfold formatOutput
    rw [List.map_map]
    rfl

/-- Witness for C3 at the concrete two-row input of the specification. -/
theorem c3_wellformed_extract_witness :
    parseCSV "username,displayName\njohn_doe,John Doe\njane_smith,Jane Smith".toList =
      .ok [{ username := "john_doe".toList, displayName := "John Doe".toList },
           { username := "jane_smith".toList, displayName := "Jane Smith".toList }] ∧
    formatOutput [{ username := "john_doe".toList, displayName := "John Doe".toList },
           { username := "jane_smith".toList, displayName := "Jane Smith".toList }] =
      "john_doe@John Doe,\njane_smith@Jane Smith".toList := by
  have h := c3_wellformed_extract
    [("john_doe".toList, "John Doe".toList), ("jane_smith".toList, "Jane Smith".toList)]
    (by decide)
  refine ⟨?_, h.2.trans (by decide)⟩
  rw [show ("username,displayName\njohn_doe,John Doe\njane_smith,Jane Smith".toList : Str) =
    csvTextOf [("john_doe".toList, "John Doe".toList),
      ("jane_smith".toList, "Jane Smith".toList)] from by decide]
  exact h.1

/-- Claim C4: with a resolvable header, a malformed data row (too few fields,
or an empty value in a target column) is silently excluded and never aborts
extraction: replacing one valid row by an invalid one leaves the other rows'
records unchanged and lowers the record count by exactly one. -/
theorem c4_malformed_row_skipped (t t' line0 r r' : Str) (pre post : List Str)
    (ui di : Nat) (rec : Record)
    (hsplit : splitChar '\n' (trimStr t) = line0 :: (pre ++ r :: post))
    (hsplit' : splitChar '\n' (trimStr t') = line0 :: (pre ++ r' :: post))
    (hu : usernameIndexOf line0 = some ui) (hd : displayNameIndexOf line0 = some di)
    (hr : parseRow ui di r = some rec) (hr' : parseRow ui di r' = none) :
    parseCSV t = .ok (extractRows ui di pre ++ rec :: extractRows ui di post) ∧
    parseCSV t' = .ok (extractRows ui di pre ++ extractRows ui di post) ∧
    ∃ l l', parseCSV t = .ok l ∧ parseCSV t' = .ok l' ∧ l.length = l'.length + 1 := by
  have h1 : parseCSV t = .ok (extractRows ui di (pre ++ r :: post)) :=
    parseCSV_resolved hsplit hu hd
  have h2 : parseCSV t' = .ok (extractRows ui di (pre ++ r' :: post)) :=
    parseCSV_resolved hsplit' hu hd
  have e1 : extractRows ui di (pre ++ r :: post) =
      extractRows ui di pre ++ rec :: extractRows ui di post := by
    unfold extractRows
    rw [List.filterMap_append, List.filterMap_cons, hr]
  have e2 : extractRows ui di (pre ++ r' :: post) =
      extractRows ui di pre ++ extractRows ui di post := by
    unfold extractRows
    rw [List.filterMap_append, List.filterMap_cons, hr']
  refine ⟨by rw [h1, e1], by rw [h2, e2],
    extractRows ui di pre ++ rec :: extractRows ui di post,
    extractRows ui di pre ++ extractRows ui di post,
    by rw [h1, e1], by rw [h2, e2], by simp; omega⟩

/-- Witness for C4: invalidating the second data row (dropping its
displayName value) removes exactly its record and keeps the first row's. -/
theorem c4_malformed_row_skipped_witness :
    parseCSV "username,displayName\na,b\nc,d".toList =
      .ok [{ username := "a".toList, displayName := "b".toList },
           { username := "c".toList, displayName := "d".toList }] ∧
    parseCSV "username,displayName\na,b\nc,".toList =
      .ok [{ username := "a".toList, displayName := "b".toList }] := by
  have h := c4_malformed_row_skipped
    "username,displayName\na,b\nc,d".toList "username,displayName\na,b\nc,".toList
    "username,displayName".toList "c,d".toList "c,".toList
    ["a,b".toList] [] 0 1 { username := "c".toList, displayName := "d".toList }
    (by decide) (by decide) (by decide) (by decide) (by decide) (by decide)
  exact ⟨h.1.trans (by decide), h.2.1.trans (by decide)⟩

/-- Claim C5: a non-blank input whose first line does not resolve both target
columns fails with `MissingColumnsError`, whose message names both expected
column names. -/
theorem c5_missing_columns (t line0 : Str) (rest : List Str)
    (hnb : trimStr t ≠ [])
    (hsplit : splitChar '\n' (trimStr t) = line0 :: rest)
    (hmiss : usernameIndexOf line0 = none ∨ displayNameIndexOf line0 = none) :
    parseCSV t = .error (.missingColumns missingMsg) ∧
    ("username".toList : Str) <:+: missingMsg ∧
    ("displayName".toList : Str) <:+: missingMsg :=
  ⟨parseCSV_unresolved hsplit hmiss, by decide, by decide⟩

/-- Witness for C5 at the concrete input `username,email\nfoo,bar@x.com`. -/
theorem c5_missing_columns_witness :
    parseCSV "username,email\nfoo,bar@x.com".toList =
      .error (.missingColumns missingMsg) :=
  (c5_missing_columns "username,email\nfoo,bar@x.com".toList
    "username,email".toList ["foo,bar@x.com".toList]
    (by decide) (by decide) (Or.inr (by decide))).1

/-- Claim C6: header role resolution is case-insensitive — two header lines
equal after lowercasing resolve to identical positions — and the displayName
role accepts all three spellings; the header `Username,Display_Name` resolves
both columns. -/
theorem c6_case_insensitive :
    (∀ line line' : Str, toLowerStr line = toLowerStr line' →
      usernameIndexOf line = usernameIndexOf line' ∧
      displayNameIndexOf line = displayNameIndexOf line') ∧
    usernameIndexOf "Username,Display_Name".toList = some 0 ∧
    displayNameIndexOf "Username,Display_Name".toList = some 1 ∧
    displayNameIndexOf "displayName".toList = some 0 ∧
    displayNameIndexOf "DISPLAY NAME".toList = some 0 ∧
    displayNameIndexOf "Display_Name".toList = some 0 ∧
    usernameIndexOf "USERNAME".toList = some 0 ∧
    parseCSV "Username,Display_Name\nfoo,Bar".toList =
      .ok [{ username := "foo".toList, displayName := "Bar".toList }] := by
  refine ⟨fun line line' h => ?_, by decide, by decide, by decide, by decide,
    by decide, by decide, by decide⟩
  unfold usernameIndexOf displayNameIndexOf headerCells
  rw [h]
  exact ⟨rfl, rfl⟩

/-- Witness for C6: a mixed-case header line resolves exactly as its
lowercase form. -/
theorem c6_case_insensitive_witness :
    usernameIndexOf "uSeRnAmE".toList = usernameIndexOf "username".toList :=
  (c6_case_insensitive.1 "uSeRnAmE".toList "username".toList (by decide)).1

/-- Claim C7: the tokenizer implements the specified scan — commas split only
outside quotes, quotes toggle the flag without being emitted, commas inside
quotes are literal, and the final buffer is always emitted — so it agrees
with the specification-worded `tokenizeSpec` on every line, and
`"doe, john",John Doe` tokenizes to exactly two fields. -/
theorem c7_tokenizer_refines :
    (∀ line : Str, parseCSVLine line = tokenizeSpec line) ∧
    parseCSVLine "\"doe, john\",John Doe".toList =
      ["doe, john".toList, "John Doe".toList] :=
  ⟨parseCSVLine_eq_tokenizeSpec, by decide⟩

/-- Claim C8: when the header resolves both columns, extraction succeeds; if
every data row fails validation the result is the empty record set, not an
error, so the empty result is distinguishable from the failure outcomes. -/
theorem c8_empty_result_ok (t line0 : Str) (rest : List Str) (ui di : Nat)
    (hsplit : splitChar '\n' (trimStr t) = line0 :: rest)
    (hu : usernameIndexOf line0 = some ui) (hd : displayNameIndexOf line0 = some di) :
    parseCSV t = .ok (extractRows ui di rest) ∧
    ((∀ r ∈ rest, parseRow ui di r = none) → parseCSV t = .ok []) := by
  refine ⟨parseCSV_resolved hsplit hu hd, fun hall => ?_⟩
  rw [parseCSV_resolved hsplit hu hd]
  unfold extractRows
  rw [List.filterMap_eq_nil_iff.mpr hall]

/-- Witness for C8: both data rows have an empty target value, so extraction
succeeds with an empty record set. -/
theorem c8_empty_result_ok_witness :
    parseCSV "username,displayName\nonly_user,\n,OnlyName".toList = .ok [] := by
  have h := c8_empty_result_ok "username,displayName\nonly_user,\n,OnlyName".toList
    "username,displayName".toList ["only_user,".toList, ",OnlyName".toList] 0 1
    (by decide) (by decide) (by decide)
  exact h.2 (by decide)

/-- Claim C9: `parseCSV` and `parseCSVLine` are pure functions of their input
string: on identical inputs they return identical results. -/
theorem c9_deterministic : ∀ t₁ t₂ : Str, t₁ = t₂ →
    (parseCSV t₁ = parseCSV t₂ ∧
      ∀ l₁ l₂ : Str, l₁ = l₂ → parseCSVLine l₁ = parseCSVLine l₂) := by
  intro t₁ t₂ h
  subst h
  exact ⟨rfl, fun l₁ l₂ hl => by rw [hl]⟩

/-- Witness for C9 at a concrete input. -/
theorem c9_deterministic_witness :
    parseCSV "username,displayName\na,b".toList =
      parseCSV "username,displayName\na,b".toList :=
  (c9_deterministic "username,displayName\na,b".toList
    "username,displayName\na,b".toList rfl).1

/-- Claim C10: `findIndex` takes the lowest-index header cell matching a
role — every cell left of the resolved position fails the role's predicate —
and extraction succeeds using those positions when a header contains
duplicate matches. -/
theorem c10_leftmost_match :
    (∀ (line0 : Str) (i : Nat), usernameIndexOf line0 = some i →
      isUsernameCell ((headerCells line0).getD i []) = true ∧
      ∀ j, j < i → isUsernameCell ((headerCells line0).getD j []) = false) ∧
    (∀ (line0 : Str) (i : Nat), displayNameIndexOf line0 = some i →
      isDisplayNameCell ((headerCells line0).getD i []) = true ∧
      ∀ j, j < i → isDisplayNameCell ((headerCells line0).getD j []) = false) ∧
    usernameIndexOf "username,username".toList = some 0 ∧
    displayNameIndexOf "display_name,display name".toList = some 0 ∧
    parseCSV "username,Username,display name,display_name\nu1,u2,d1,d2".toList =
      .ok [{ username := "u1".toList, displayName := "d1".toList }] :=
  ⟨fun line0 i h => findIdx?_leftmost isUsernameCell (headerCells line0) i h,
   fun line0 i h => findIdx?_leftmost isDisplayNameCell (headerCells line0) i h,
   by decide, by decide, by decide⟩

/-- Witness for C10: in `x,username,username` the role resolves to index 1
and the cell at index 0 indeed fails the username predicate. -/
theorem c10_leftmost_match_witness :
    isUsernameCell ((headerCells "x,username,username".toList).getD 0 []) = false :=
  (c10_leftmost_match.1 "x,username,username".toList 1 (by decide)).2 0 (by decide)
